import Mathlib

set_option maxRecDepth 8000

/-!
Verification model of the Zenlytic RFI assistant backend.

Each definition below is a shallow embedding of a function of the
repository, translated from the TypeScript source:
  - `src/netlify/functions/_shared/job-store.ts` (job store),
  - `src/netlify/functions/batch-background.ts` (batch orchestrator),
  - `src/netlify/functions/_shared/notion-tools.ts` (notion tools and the
    answering engine `askQuestion`),
  - `src/netlify/functions/_shared/system-prompt.ts` (local index search),
  - the docs tools (`searchDocs`, `getDocsPage`) and the Q&A pair store.

JavaScript strings are modelled as Lean `String`, JS numbers holding
timestamps as `ℤ` (milliseconds), the float expression
`Math.round((a / b) * 100)` as exact rational arithmetic with round half
up, and JS exceptions as `Except String`.  External effects (the Notion
HTTP API, the filesystem, the RegExp engine of the JS runtime) are
parameters of the embedded functions.
-/

/-! ## JavaScript primitives -/

/-- `Math.round` on a non-negative rational: round half up, `⌊q + 1/2⌋`.
The source computes the rounded argument in IEEE doubles; this
exact-rational model agrees with the program except when the double
product lands on the other side of a half-integer boundary than the
exact value (e.g. `(201/200)*100` evaluates to slightly under `100.5`
in doubles).  The theorems below use it only away from such
boundaries. -/
def jsRound (q : ℚ) : ℤ := ⌊q + 1/2⌋

/-- JS `String.prototype.toLowerCase` for the ASCII strings this code base
uses (character-wise lowering). -/
def lowerStr (s : String) : String := ⟨s.data.map Char.toLower⟩

/-- JS `String.prototype.toUpperCase` for ASCII strings. -/
def upperStr (s : String) : String := ⟨s.data.map Char.toUpper⟩

/-- Substring test on character lists, the semantics of JS
`String.prototype.includes`. -/
def containsSub : List Char → List Char → Bool
  | hay, pat =>
    if pat.isPrefixOf hay then true
    else match hay with
      | [] => false
      | _ :: t => containsSub t pat

/-- JS `hay.includes(pat)`. -/
def strContains (hay pat : String) : Bool := containsSub hay.data pat.data

/-- Helper for `String.prototype.split` on a separator *class* regex such as
`/\s+/` or `/[\s,]+/`: a run of separator characters is one split point, a
leading or trailing run contributes an empty piece, and the empty string
splits to `[""]` — exactly the JS behaviour.  The `Option` accumulator is
`none` while inside a separator run (nothing to emit for further separator
characters) and `some acc` while collecting a piece. -/
def jsSplitRunsAux (p : Char → Bool) : List Char → Option (List Char) → List (List Char)
  | [], some acc => [acc.reverse]
  | [], none => [[]]
  | c :: cs, some acc =>
    if p c then acc.reverse :: jsSplitRunsAux p cs none
    else jsSplitRunsAux p cs (some (c :: acc))
  | c :: cs, none =>
    if p c then jsSplitRunsAux p cs none
    else jsSplitRunsAux p cs (some [c])

/-- JS `s.split(regex)` for a separator-class regex with `+`. -/
def jsSplitRuns (p : Char → Bool) (s : String) : List String :=
  (jsSplitRunsAux p s.data (some [])).map (fun cs => ⟨cs⟩)

/-- Separator class of `/\s+/`. -/
def wsClass (c : Char) : Bool := c.isWhitespace

/-- Separator class of `/[\s,]+/`. -/
def wsCommaClass (c : Char) : Bool := c.isWhitespace || c = ','

/-- First index of `pat` in `hay`, `-1` when absent: JS
`String.prototype.indexOf`. -/
def jsIndexOfAux : List Char → List Char → ℤ → ℤ
  | hay, pat, i =>
    if pat.isPrefixOf hay then i
    else match hay with
      | [] => -1
      | _ :: t => jsIndexOfAux t pat (i + 1)

/-- JS `hay.indexOf(pat)`. -/
def jsIndexOf (hay pat : String) : ℤ := jsIndexOfAux hay.data pat.data 0

/-- Split `hay` around the first occurrence of `pat`:
`some (before, after)` or `none` when `pat` does not occur. -/
def findSub : List Char → List Char → Option (List Char × List Char)
  | hay, pat =>
    if pat.isPrefixOf hay then some ([], hay.drop pat.length)
    else match hay with
      | [] => none
      | c :: t => (findSub t pat).map (fun pr => (c :: pr.1, pr.2))

/-- JS `s.replace(pat, repl)` with a *string* pattern: replaces only the
first occurrence. -/
def jsReplaceOnce (s pat repl : String) : String :=
  match findSub s.data pat.data with
  | none => s
  | some (pre, suf) => ⟨pre ++ repl.data ++ suf⟩

/-- JS `s.slice(a, b)` for the non-negative clamped index values arising in
this code base (character counting). -/
def jsSlice (s : String) (a b : ℕ) : String := ⟨(s.data.drop a).take (b - a)⟩

/-- JS `s.slice(0, n)`. -/
def jsTake (s : String) (n : ℕ) : String := ⟨s.data.take n⟩

/-- JS `String.prototype.trim`. -/
def jsTrim (s : String) : String :=
  ⟨((s.data.dropWhile Char.isWhitespace).reverse.dropWhile Char.isWhitespace).reverse⟩

/-- JS `Array.prototype.join(sep)`. -/
def jsJoin (sep : String) (parts : List String) : String :=
  match parts with
  | [] => ""
  | p :: ps => ps.foldl (fun acc q => acc ++ sep ++ q) p

/-- Association lookup with string keys, the semantics of reading a plain
JS object used as a map. -/
def assocFind (m : List (String × String)) (key : String) : Option String :=
  (m.find? (fun kv => kv.1 = key)).map (fun kv => kv.2)

/-- JS `try { body } catch (e) { handler }` in the `Except` model of
exceptions. -/
def jsTry {α : Type} (body : Except String α) (handler : String → Except String α) :
    Except String α :=
  match body with
  | .ok a => .ok a
  | .error e => handler e

/-! ## Job store (`_shared/job-store.ts`) -/

/-- Job status union `'pending' | 'processing' | 'completed' | 'failed'`. -/
inductive JobStatus where
  | pending
  | processing
  | completed
  | failed
deriving DecidableEq

/-- One entry of `BatchJob.questions`. -/
structure BatchQuestion where
  id : String
  question : String
  context : Option String
deriving DecidableEq

/-- One entry of `BatchJob.results`. -/
structure BatchResult where
  id : String
  question : String
  answer : String
  citations : List String
  error : Option String
deriving DecidableEq

/-- The persisted `BatchJob` record. -/
structure BatchJob where
  id : String
  status : JobStatus
  questions : List BatchQuestion
  instructions : Option String
  results : List BatchResult
  progress : ℤ
  error : Option String
  createdAt : ℤ
  updatedAt : ℤ
deriving DecidableEq

/-- The Netlify blob store `'batch-jobs'`: a keyed list of records. -/
abbrev JobStore := List (String × BatchJob)

/-- `createJob`: the job id is `job_${Date.now()}_${random}`; the record
starts `pending` with no results and progress `0`.  `Date.now()` and the
random id suffix are the parameters `now` and `rand`. -/
def createJob (questions : List BatchQuestion) (instructions : Option String)
    (now : ℤ) (rand : String) : BatchJob :=
  { id := "job_" ++ toString now ++ "_" ++ rand
    status := .pending
    questions := questions
    instructions := instructions
    results := []
    progress := 0
    error := none
    createdAt := now
    updatedAt := now }

/-- `store.setJSON(id, job)`: overwrite the record under `id`, appending
when no record with that key exists. -/
def setJob (store : JobStore) (id : String) (job : BatchJob) : JobStore :=
  match store with
  | [] => [(id, job)]
  | (k, v) :: rest => if k = id then (id, job) :: rest else (k, v) :: setJob rest id job

/-- `getJob`: blob lookup; `null` when absent (store read errors are caught
and also yield `null`). -/
def getJob (store : JobStore) (id : String) : Option BatchJob :=
  (store.find? (fun kv => kv.1 = id)).map (fun kv => kv.2)

/-- The `Object.assign(job, updates, { updatedAt: Date.now() })` step of
`updateJob` for the status-only updates the orchestrator issues. -/
def applyStatusUpdate (job : BatchJob) (status : JobStatus) (now : ℤ) : BatchJob :=
  { job with status := status, updatedAt := now }

/-- `updateJob(id, { status })` on the store: read-modify-write, `null`
(modelled by leaving the store unchanged) when the job is absent. -/
def updateJobStatus (store : JobStore) (id : String) (status : JobStatus) (now : ℤ) :
    JobStore :=
  match getJob store id with
  | none => store
  | some job => setJob store id (applyStatusUpdate job status now)

/-- The record mutation of `addResult`: push the result, recompute
`progress = Math.round((results.length / questions.length) * 100)`, refresh
`updatedAt`, and flip status to `completed` when `results.length ===
questions.length`. -/
def applyAddResult (job : BatchJob) (result : BatchResult) (now : ℤ) : BatchJob :=
  let results := job.results ++ [result]
  let progress := jsRound (((results.length : ℚ) / (job.questions.length : ℚ)) * 100)
  let status := if results.length = job.questions.length then JobStatus.completed else job.status
  { job with results := results, progress := progress, status := status, updatedAt := now }

/-- `addResult(jobId, result)` on the store. -/
def addResult (store : JobStore) (jobId : String) (result : BatchResult) (now : ℤ) :
    JobStore :=
  match getJob store jobId with
  | none => store
  | some job => setJob store jobId (applyAddResult job result now)

/-- `cleanupOldJobs`: delete every record whose `updatedAt` lies strictly
before `Date.now() - 60 * 60 * 1000`. -/
def cleanupOldJobs (store : JobStore) (now : ℤ) : JobStore :=
  let oneHourAgo := now - 60 * 60 * 1000
  store.filter (fun kv => !(decide (kv.2.updatedAt < oneHourAgo)))

/-- The job states reachable through the store operations as the system
calls them: `createJob` with a non-empty question list; `addResult` at most
once per question (the orchestrator appends exactly one result per
question, hence never beyond `questions.length`); `updateJob` status-only
writes, to `processing` while results are still missing (issued right
after the job is loaded) and to `completed` once every question has a
result (issued after the loop). -/
inductive ReachableJob : BatchJob → Prop
  | create (questions : List BatchQuestion) (instructions : Option String)
      (now : ℤ) (rand : String) (hne : questions ≠ []) :
      ReachableJob (createJob questions instructions now rand)
  | add (job : BatchJob) (result : BatchResult) (now : ℤ) :
      ReachableJob job → job.results.length < job.questions.length →
      ReachableJob (applyAddResult job result now)
  | markProcessing (job : BatchJob) (now : ℤ) :
      ReachableJob job → job.results.length < job.questions.length →
      ReachableJob (applyStatusUpdate job .processing now)
  | markCompleted (job : BatchJob) (now : ℤ) :
      ReachableJob job → job.results.length = job.questions.length →
      ReachableJob (applyStatusUpdate job .completed now)

/-! ## Answering engine (`askQuestion` in `_shared/claude.ts`) -/

/-- `stop_reason` of a provider response, as far as the loop inspects it:
the code only compares against `'tool_use'`. -/
inductive StopReason where
  | toolUse
  | endTurn
  | maxTokens
deriving DecidableEq

/-- One content block of a provider response. -/
inductive Block where
  | text (t : String)
  | toolUse (id : String) (toolName : String) (input : String)
deriving DecidableEq

/-- One provider response: `stop_reason` plus `content`. -/
structure ProviderResponse where
  stopReason : StopReason
  content : List Block
deriving DecidableEq

/-- One `tool_result` entry pushed by the loop body. -/
structure ToolResult where
  toolUseId : String
  content : String
deriving DecidableEq

/-- One entry of the `messages` transcript: the initial user turn, an
assistant turn echoing the provider content, or a user turn carrying the
tool results of the previous assistant turn. -/
inductive Message where
  | user (text : String)
  | assistant (content : List Block)
  | toolResults (results : List ToolResult)
deriving DecidableEq

/-- The `tool_use` blocks of a response content, in order
(`response.content.filter(block => block.type === 'tool_use')`). -/
def toolUseBlocks (content : List Block) : List Block :=
  content.filter (fun b => match b with | .toolUse _ _ _ => true | _ => false)

/-- The correlation ids of the `tool_use` blocks of a content list. -/
def toolUseIds (content : List Block) : List String :=
  content.filterMap (fun b => match b with | .toolUse i _ _ => some i | _ => none)

/-- The body of the `for (const toolUse of toolUseBlocks)` loop: one
`tool_result` per `tool_use` block, carrying the matching `tool_use_id`
and the tool router output truncated to 10000 characters
(`result.slice(0, 10000)`).  `exec` is `processToolCall`, abstracted over
the network-bound retrieval sources. -/
def toolResultsFor (exec : String → String → String) (content : List Block) :
    List ToolResult :=
  (toolUseBlocks content).map (fun b =>
    match b with
    | .toolUse i n inp => { toolUseId := i, content := jsTake (exec n inp) 10000 }
    | .text t => { toolUseId := "", content := t })

/-- The `while (response.stop_reason === 'tool_use')` loop of `askQuestion`.
Each iteration consumes one further provider response (one round-trip of
`anthropic.messages.create`); the pending responses of the provider are the
trace `rest`.  The loop appends the assistant content and the tool results
to the transcript *before* the next provider call.  Result: the final
transcript, and `some finalResponse` when the loop exited, or `none` when
every provided response signalled `tool_use` and the loop is still running
after consuming the whole trace — the source imposes no iteration cap, so
there is no other way out.  (The `searches` observability accumulator is
omitted: it feeds only the returned trace, not the loop control or the
transcript.) -/
def askLoop (exec : String → String → String) :
    ProviderResponse → List ProviderResponse → List Message →
    List Message × Option ProviderResponse
  | resp, [], msgs =>
    if resp.stopReason = StopReason.toolUse then
      (msgs ++ [Message.assistant resp.content,
        Message.toolResults (toolResultsFor exec resp.content)], none)
    else (msgs, some resp)
  | resp, r :: rs, msgs =>
    if resp.stopReason = StopReason.toolUse then
      askLoop exec r rs (msgs ++ [Message.assistant resp.content,
        Message.toolResults (toolResultsFor exec resp.content)])
    else (msgs, some resp)

/-- A transcript suffix produced by the loop: consecutive
assistant/tool-results pairs in which the pushed tool results correspond
one-to-one, in order and by `tool_use_id`, to the `tool_use` blocks of the
assistant turn. -/
inductive BalancedPairs : List Message → Prop
  | nil : BalancedPairs []
  | pair (content : List Block) (trs : List ToolResult) (rest : List Message) :
      trs.map ToolResult.toolUseId = toolUseIds content →
      BalancedPairs rest →
      BalancedPairs (Message.assistant content :: Message.toolResults trs :: rest)

/-! ## Batch orchestrator (`batch-background.ts`) -/

/-- Outcome of one `askQuestion` call as the orchestrator sees it: the
answer and citations, or the thrown error.  (The `searches` field of the
engine result is unused by the orchestrator.) -/
structure AskOutcome where
  answer : String
  citations : List String
deriving DecidableEq

/-- The answering engine as a per-question oracle: `askQuestion` either
resolves with an outcome or rejects. -/
abbrev Engine := BatchQuestion → Except String AskOutcome

/-- `fullContext` assembly: per-question context first, then the job's
shared instructions, each part omitted when absent; the engine receives
`undefined` when the combined string is empty. -/
def combineContext (context : Option String) (instructions : Option String) :
    Option String :=
  let fullContext := match context with | none => "" | some c => c
  let fullContext :=
    match instructions with
    | none => fullContext
    | some ins =>
        if fullContext ≠ "" then fullContext ++ "\n\nAdditional instructions: " ++ ins
        else "Additional instructions: " ++ ins
  if fullContext = "" then none else some fullContext

/-- The `for (const q of job.questions)` loop: ask the engine; on success
append a result carrying answer and citations; on a caught per-question
error append a result with empty answer, empty citations and the error
message; either way continue with the next question.  Every `addResult` is
a read-modify-write against the store. -/
def processQuestions (engine : Engine) (jobId : String)
    (instructions : Option String) (now : ℤ) :
    List BatchQuestion → JobStore → JobStore
  | [], store => store
  | q :: qs, store =>
    let store2 :=
      match engine { q with context := combineContext q.context instructions } with
      | .ok r =>
          addResult store jobId
            { id := q.id, question := q.question, answer := r.answer
              citations := r.citations, error := none } now
      | .error e =>
          addResult store jobId
            { id := q.id, question := q.question, answer := ""
              citations := [], error := some e } now
    processQuestions engine jobId instructions now qs store2

/-- The local `job` of the handler: `const job = getJob(jobId)` — the call
is not awaited (`getJob` is `async`), so `job` holds the *Promise* object,
not the `BatchJob | null` it resolves to. -/
structure UnawaitedPromise (α : Type) where
  resolvesTo : α

/-- A JS Promise is an object, and every object is truthy: the
`if (!job)` guard of the handler can never fire. -/
def promiseTruthy {α : Type} (_ : UnawaitedPromise α) : Bool := true

/-- Property access on the un-awaited Promise: `job.questions` reads a
property that does not exist on a Promise object and yields `undefined`,
whatever the Promise later resolves to. -/
def promiseField {α β : Type} (_ : UnawaitedPromise α) (_ : α → β) : Option β := none

/-- `undefined.length`: a `TypeError` is thrown when the receiver is
`undefined`; otherwise the length is read. -/
def jsLengthOf {α : Type} : Option (List α) → Except String ℕ
  | none => .error "TypeError: Cannot read properties of undefined (reading 'length')"
  | some l => .ok l.length

/-- The HTTP result of the background handler: status code and store
after the run. -/
structure HandlerResult where
  statusCode : ℕ
  store : JobStore

/-- The `batch-background` handler, as written.  `method` is
`event.httpMethod`; `jobId?` is the `jobId` field of the parsed body
(`none` for a missing/falsy id; a JSON parse failure travels the same
`catch` route as any other thrown error and is folded into it).  The three
store calls `getJob`, `updateJob` and `addResult` are *not* awaited in the
source; for `getJob` this is observable — `job` is a Promise, so
`job.questions` is `undefined` and reading `.length` on it throws a
`TypeError` that the top-level `try` converts into a 500 response before
any store write is issued.  The branch past that read models the rest of
the source loop (with the un-awaited writes applied in program order) and
is unreachable. -/
def batchBackgroundHandler (store : JobStore) (method : String)
    (jobIdOpt : Option String) (engine : Engine) (now : ℤ) : HandlerResult :=
  if method ≠ "POST" then { statusCode := 405, store := store }
  else
    match jobIdOpt with
    | none => { statusCode := 400, store := store }
    | some jobId =>
      let job : UnawaitedPromise (Option BatchJob) := ⟨getJob store jobId⟩
      if promiseTruthy job = false then { statusCode := 404, store := store }
      else
        match jsLengthOf (promiseField job (fun j => (j.map BatchJob.questions).getD [])) with
        | .error _ => { statusCode := 500, store := store }
        | .ok _ =>
          match promiseField job id with
          | none => { statusCode := 500, store := store }
          | some none => { statusCode := 404, store := store }
          | some (some j) =>
            let store1 := updateJobStatus store jobId .processing now
            let store2 := processQuestions engine jobId j.instructions now j.questions store1
            let store3 := updateJobStatus store2 jobId .completed now
            { statusCode := 200, store := store3 }

/-- The same handler with the three missing `await`s inserted — the
handler as its types declare it and as the specification describes it.
Used to document what the orchestration loop was meant to do. -/
def batchBackgroundHandlerAwaited (store : JobStore) (method : String)
    (jobIdOpt : Option String) (engine : Engine) (now : ℤ) : HandlerResult :=
  if method ≠ "POST" then { statusCode := 405, store := store }
  else
    match jobIdOpt with
    | none => { statusCode := 400, store := store }
    | some jobId =>
      match getJob store jobId with
      | none => { statusCode := 404, store := store }
      | some j =>
        let store1 := updateJobStatus store jobId .processing now
        let store2 := processQuestions engine jobId j.instructions now j.questions store1
        let store3 := updateJobStatus store2 jobId .completed now
        { statusCode := 200, store := store3 }

/-! ## Local index search (`_shared/system-prompt.ts`) -/

/-- One entry of the pre-exported search index. -/
structure IndexedPage where
  id : String
  title : String
  parent : String
  keywords : List String
  snippet : String
deriving DecidableEq

/-- The `/^cc[\d\.]+$/i` test of `scoreMatch`: two `c`s in either case
followed by one or more characters, each a digit or a dot. -/
def isCCPattern (s : String) : Bool :=
  match s.data with
  | c0 :: c1 :: rest =>
      (c0 = 'c' || c0 = 'C') && (c1 = 'c' || c1 = 'C') &&
      !rest.isEmpty && rest.all (fun c => c.isDigit || c = '.')
  | _ => false

/-- The per-term contribution inside `scoreMatch`'s `for` loop: +10 for an
exact (lowercased) keyword match, else +5 for a keyword containing the
term; +8 for a title substring; +3 for a snippet substring; +15 when the
term matches the CC-control pattern and is an exact keyword. -/
def termScore (titleLower snippetLower : String) (keywordsLower : List String)
    (term : String) : ℕ :=
  (if keywordsLower.contains term then 10
   else if keywordsLower.any (fun k => strContains k term) then 5
   else 0) +
  (if strContains titleLower term then 8 else 0) +
  (if strContains snippetLower term then 3 else 0) +
  (if isCCPattern term && keywordsLower.contains term then 15 else 0)

/-- `scoreMatch(page, queryTerms)`. -/
def scoreMatch (page : IndexedPage) (queryTerms : List String) : ℕ :=
  queryTerms.foldl
    (fun score term =>
      score +
        termScore (lowerStr page.title) (lowerStr page.snippet)
          (page.keywords.map lowerStr) term)
    0

/-- The query tokenizer of `searchLocalIndex`: lowercase, split on
`/[\s,]+/`, keep tokens of length `> 2`. -/
def localQueryTerms (query : String) : List String :=
  (jsSplitRuns wsCommaClass (lowerStr query)).filter (fun t => t.length > 2)

/-- A page paired with its score. -/
structure ScoredPage where
  page : IndexedPage
  score : ℕ
deriving DecidableEq

/-- The comparator `(a, b) => b.score - a.score`: `a` may precede `b`
exactly when `b.score ≤ a.score` (descending order). -/
def scoreDesc (a b : ScoredPage) : Bool := decide (b.score ≤ a.score)

/-- The `map`/`filter(score > 0)`/`sort(desc)` pipeline of
`searchLocalIndex`, before the `slice(0, limit)` and formatting. -/
def rankedMatches (query : String) (index : List IndexedPage) : List ScoredPage :=
  ((index.map (fun page => { page := page, score := scoreMatch page (localQueryTerms query) }))
      |>.filter (fun item => item.score > 0)).mergeSort scoreDesc

/-- `searchLocalIndex(query, limit)`: empty-index and no-match sentinels,
otherwise the formatted top `limit` matches. -/
def searchLocalIndex (query : String) (limit : ℕ) (index : List IndexedPage) : String :=
  if index.length = 0 then "Local index not available"
  else
    let scored := (rankedMatches query index).take limit
    if scored.length = 0 then "No local results for \"" ++ query ++ "\""
    else
      jsJoin "\n\n---\n\n"
        (scored.map (fun item =>
          "## " ++ item.page.title ++ "\n**Parent:** " ++ item.page.parent ++
          "\n**Keywords:** " ++ jsJoin ", " item.page.keywords ++ "\n\n" ++
          item.page.snippet ++ "..."))

/-! ## Notion page resolution (`getNotionPage` in `_shared/notion-tools.ts`) -/

/-- `NOTION_PAGES` of `system-prompt.ts`. -/
def NOTION_PAGES_EMPLOYEE_HANDBOOK : String := "dc73011524e54feaa2a69d78d6e5164e"

def NOTION_PAGES_SECURITY_HOMEPAGE : String := "6b8833be227a437a8f846f9cd5c896e4"

def NOTION_PAGES_ENGINEERING_WIKI : String := "3f72c85f50d947ec97543db5242260f9"

def NOTION_PAGES_SOC2_PAGE : String := "a4bde54a446d41b6a3f36ccf8fbf3374"

/-- The `CC_CONTROLS` control-identifier alias table of
`system-prompt.ts`. -/
def CC_CONTROLS : List (String × String) :=
  [("CC1.1.1", "526475ca69d24b67a4f7ddf8d8964201"),
   ("CC1.1.3", "53107304c6764dad877fe3dc62b7fe2f"),
   ("CC1.5.1", "519cf166e30d44bfb454d388ed246e04"),
   ("CC2.3.3", "cdfb1ee20e754a98b2ee05e323f44433"),
   ("CC2.3.4", "1b4a8dad05ac803ba447fc9262f97f83"),
   ("CC6.2.2", "808186e5ec0845e99539c798f47ffb15"),
   ("CC8.1.1", "fc9d81e43f8440c8b798d5018a890134"),
   ("CC9.1.1", "54d40b58483548bebe4d087df35eed07"),
   ("CC9.1.2", "ab72611c438740fe8ab4f7dcac850c91"),
   ("CC-P2.1", "df929f142b7d418893dd979ceeee50f8"),
   ("CC.AI.1", "21ea8dad05ac8094a02de223590bc0b3")]

/-- The main page alias object built inside `getNotionPage`. -/
def MAIN_ALIASES : List (String × String) :=
  [("employee_handbook", NOTION_PAGES_EMPLOYEE_HANDBOOK),
   ("security_homepage", NOTION_PAGES_SECURITY_HOMEPAGE),
   ("engineering_wiki", NOTION_PAGES_ENGINEERING_WIKI),
   ("soc2", NOTION_PAGES_SOC2_PAGE)]

/-- `pageIdOrControl.toLowerCase().replace(/\s+/g, '_')`: every run of
whitespace becomes a single underscore. -/
def lowerAliasKey (s : String) : String := jsJoin "_" (jsSplitRuns wsClass (lowerStr s))

/-- The page-id resolution prefix of `getNotionPage` (source lines 72–90):
start from the argument, map it through `CC_CONTROLS` keyed by its
uppercase form, then through the main alias table keyed by its lowercased
underscore form; the result is the identifier handed to
`notion.pages.retrieve` and `notion.blocks.children.list`. -/
def resolvePageId (pageIdOrControl : String) : String :=
  let pageId := pageIdOrControl
  let upperControl := upperStr pageIdOrControl
  let pageId :=
    match assocFind CC_CONTROLS upperControl with
    | some v => v
    | none => pageId
  let lowerAlias := lowerAliasKey pageIdOrControl
  match assocFind MAIN_ALIASES lowerAlias with
  | some v => v
  | none => pageId

/-! ## Retrieval sources (`notion-tools.ts`, `docs-tools.ts`,
`qa-store.ts`) in the exception model -/

/-- A page object of a Notion API response, at the granularity the code
reads it: the id, and the optional-chained title text
`properties?.title?.title?.[0]?.plain_text ||
properties?.Name?.title?.[0]?.plain_text` (`none` when the whole chain is
undefined — malformed or untitled pages included). -/
structure NotionPageObj where
  id : String
  titleText : Option String
deriving DecidableEq

/-- Rendering-relevant shape of a block of `blocks.children.list`:
`block.type` as far as the switch inspects it, the optional
`block[block.type]?.rich_text` already projected to its `plain_text`
pieces, and the `to_do` checkbox state. -/
inductive BlockKind where
  | heading1
  | heading2
  | heading3
  | bulletedListItem
  | numberedListItem
  | todo
  | divider
  | other
deriving DecidableEq

structure NotionBlockObj where
  kind : BlockKind
  richText : Option (List String)
  checked : Bool
deriving DecidableEq

/-- One response of `notion.blocks.children.list`. -/
structure BlocksBatch where
  results : List NotionBlockObj
  hasMore : Bool
  nextCursor : Option String
deriving DecidableEq

/-- The remote Notion workspace as the code calls it; every call may
reject (network error) or resolve with arbitrary — possibly malformed —
data.  `blocksBatches id` is the sequence of successive
`blocks.children.list` responses for `block_id = id` (one entry per
pagination round-trip). -/
structure NotionApi where
  search : String → Except String (List NotionPageObj)
  retrievePage : String → Except String NotionPageObj
  blocksBatches : String → List (Except String BlocksBatch)

/-- `richText?.map(t => t.plain_text).join('') || ''`. -/
def blockPlainText (b : NotionBlockObj) : String :=
  match b.richText with
  | none => ""
  | some ts => jsJoin "" ts

/-- The preview assembly inside the `searchNotion` result mapper: first 5
blocks' text, blank lines dropped (`filter(Boolean)`), joined with
newlines. -/
def searchPreviewText (blocks : List NotionBlockObj) : String :=
  jsJoin "\n" ((blocks.map blockPlainText).filter (fun s => s ≠ ""))

/-- `searchNotion(query, pageFilter?)`.  The whole body sits in a
`try`/`catch` whose handler returns an error *string*; each page preview
fetch has its own inner `try` producing the `[Content preview
unavailable]` marker.  (`pageFilter` is accepted and unused, as in the
source.) -/
def searchNotionE (query : String) (_pageFilter : Option String) (api : NotionApi) :
    Except String String :=
  jsTry
    (do
      let results ← api.search query
      if results.length = 0 then
        pure ("No results found for \"" ++ query ++ "\" in Notion.")
      else do
        let parts ← (results.take 5).mapM (fun page => do
          let title := page.titleText.getD "Untitled"
          jsTry
            (do
              let batch ← match (api.blocksBatches page.id).head? with
                | some r => r
                | none => Except.error "network error"
              let content := searchPreviewText batch.results
              pure ("## " ++ title ++ "\n" ++ jsTake content 800 ++
                (if content.length > 800 then "..." else "")))
            (fun _ => pure ("## " ++ title ++ "\n[Content preview unavailable]")))
        pure (jsJoin "\n\n---\n\n" parts))
    (fun e => pure ("Error searching Notion: " ++ e))

/-- The `do … while (cursor)` pagination of `getNotionPage`: keep
consuming responses while `has_more` and a non-null `next_cursor` hold;
the response stream running dry models pagination that cannot continue. -/
def collectAllBlocks : List (Except String BlocksBatch) →
    Except String (List NotionBlockObj)
  | [] => .ok []
  | r :: rest => do
    let batch ← r
    if batch.hasMore && !(batch.nextCursor = none) then do
      let more ← collectAllBlocks rest
      pure (batch.results ++ more)
    else
      pure batch.results

/-- The block renderer switch of `getNotionPage`. -/
def renderBlock (b : NotionBlockObj) : String :=
  let text := blockPlainText b
  match b.kind with
  | .heading1 => "# " ++ text
  | .heading2 => "## " ++ text
  | .heading3 => "### " ++ text
  | .bulletedListItem => "• " ++ text
  | .numberedListItem => "1. " ++ text
  | .todo => (if b.checked then "☑" else "☐") ++ " " ++ text
  | .divider => "---"
  | .other => text

/-- The `try` body of `getNotionPage` after page-id resolution. -/
def getNotionPageBody (pageId : String) (api : NotionApi) : Except String String := do
  let page ← api.retrievePage pageId
  let title := page.titleText.getD "Untitled"
  let allBlocks ← collectAllBlocks (api.blocksBatches pageId)
  let content := jsJoin "\n\n" ((allBlocks.map renderBlock).filter (fun s => s ≠ ""))
  pure ("# " ++ title ++ "\n\n" ++ content)

/-- `getNotionPage(pageIdOrControl)`: resolve aliases, then fetch and
render, with the whole body under a `try`/`catch` returning an error
string. -/
def getNotionPageE (pageIdOrControl : String) (api : NotionApi) : Except String String :=
  jsTry (getNotionPageBody (resolvePageId pageIdOrControl) api)
    (fun e => pure ("Error fetching page: " ++ e))

/-- One stored Q&A pair (`qa-store.ts`). -/
structure QAPair where
  id : String
  q : String
  a : String
  keywords : List String
deriving DecidableEq

/-- The per-pair score of `searchQAPairs`: +10 when the stored question
contains the whole query; per keyword, +5 when the query contains the
keyword, and +2 per query word longer than 3 characters that the keyword
contains. -/
def qaPairScore (queryLower : String) (queryWords : List String) (pair : QAPair) : ℕ :=
  (if strContains (lowerStr pair.q) queryLower then 10 else 0) +
  pair.keywords.foldl
    (fun score keyword =>
      let score :=
        if strContains queryLower (lowerStr keyword) then score + 5 else score
      queryWords.foldl
        (fun sc word =>
          if strContains (lowerStr keyword) word && word.length > 3 then sc + 2 else sc)
        score)
    0

/-- A scored pair, for the sort comparator `(a, b) => b.score - a.score`. -/
structure ScoredQAPair where
  pair : QAPair
  score : ℕ
deriving DecidableEq

def qaScoreDesc (a b : ScoredQAPair) : Bool := decide (b.score ≤ a.score)

/-- `searchQAPairs(query)` over the loaded pair list: a pure in-memory
computation — lowercase and split the query, score every pair, keep
scores `> 0`, sort descending, take 3, format.  In the exception model its
body performs no throwing operation, so the translation is a `pure` of the
computed string. -/
def searchQAPairsE (query : String) (qaPairs : List QAPair) : Except String String :=
  pure
    (let queryLower := lowerStr query
     let queryWords := jsSplitRuns wsClass queryLower
     let scored := qaPairs.map (fun pair =>
       { pair := pair, score := qaPairScore queryLower queryWords pair })
     let found :=
       (((scored.filter (fun s => s.score > 0)).mergeSort qaScoreDesc).take 3).map
         (fun s => s.pair)
     if found.length = 0 then "No matching approved Q&A pairs found."
     else
       jsJoin "\n\n---\n\n"
         (found.map (fun qa => "**Q:** " ++ qa.q ++ "\n**A:** " ++ qa.a)))

/-! ## Docs tools (`docs-tools.ts`) -/

/-- `DOCS_SECTIONS`. -/
def DOCS_SECTIONS : List String :=
  ["authentication-and-security", "data-sources", "legal-and-support"]

/-- `SECTION_URLS`. -/
def SECTION_URLS : List (String × String) :=
  [("authentication-and-security", "https://docs.zenlytic.com/authentication-and-security"),
   ("data-sources", "https://docs.zenlytic.com/data-sources"),
   ("legal-and-support", "https://docs.zenlytic.com/legal-and-support")]

/-- One markdown file as `readMarkdownFiles` yields it: name with the
first `.md` removed, full content, and the path relative to the docs root
(the source stores the absolute path and strips the `docsPath + '/'`
prefix later; the relative form is that stripped value). -/
structure DocFile where
  name : String
  content : String
  relPath : String
deriving DecidableEq

/-- The filesystem as `searchDocs` observes it: `readMarkdownFiles` on a
section directory returns the successfully read markdown files (its
internal `try`/`catch` pairs swallow unreadable directories and files, so
failures only shrink this list and never escape). -/
abbrev DocsTree := String → List DocFile

/-- A compiled JS regex, at the granularity the code uses it:
`content.match(regex)` with the `g` flag yields `null` or an array of
matches; the code adds `matches.length`, with `null` contributing 0 —
`countMatches` is that count. -/
structure CompiledRegex where
  countMatches : String → ℕ

/-- The `new RegExp(pattern, 'gi')` constructor of the JS runtime: throws
a `SyntaxError` when the pattern — here a raw query token — is not valid
regex syntax. -/
structure RegexEngine where
  compile : String → Except String CompiledRegex

/-- The per-file scoring loop of `searchDocs`: per term, +10 when the file
name contains it, plus the number of regex matches of the term in the
content.  The `new RegExp(term, 'gi')` sits unguarded in the loop body, so
a failing compile escapes as an exception. -/
def docFileScoreAux (eng : RegexEngine) (file : DocFile) :
    List String → ℕ → Except String ℕ
  | [], score => .ok score
  | term :: ts, score =>
    let score := if strContains (lowerStr file.name) term then score + 10 else score
    match eng.compile term with
    | .error e => .error e
    | .ok rex => docFileScoreAux eng file ts (score + rex.countMatches file.content)

/-- Score of one file for the whole term list (accumulator starts at 0). -/
def docFileScore (eng : RegexEngine) (searchTerms : List String) (file : DocFile) :
    Except String ℕ :=
  docFileScoreAux eng file searchTerms 0

/-- One entry of the `results` array of `searchDocs` (`sectionName` is
the source field `section`, a reserved word here). -/
structure DocSearchResult where
  file : String
  sectionName : String
  excerpt : String
  score : ℕ
deriving DecidableEq

def docScoreDesc (a b : DocSearchResult) : Bool := decide (b.score ≤ a.score)

/-- The excerpt window of `searchDocs`: `indexOf` of the first term in the
lowercased content (`-1` when absent), then
`slice(max(0, i - 100), min(length, i + 500))` trimmed, truncated to 600
characters with an ellipsis. -/
def docExcerpt (content : String) (firstTerm : String) : String :=
  let queryIndex := jsIndexOf (lowerStr content) firstTerm
  let start := max 0 (queryIndex - 100)
  let stop := min (content.length : ℤ) (queryIndex + 500)
  let excerpt := jsTrim (jsSlice content start.toNat stop.toNat)
  if excerpt.length > 600 then jsTake excerpt 600 ++ "..." else excerpt

/-- The inner `for (const file of files)` loop of `searchDocs` for one
section: score each file and push an entry (relative path with the first
`.md` stripped, section, excerpt, score) when the score is positive. -/
def docFilesResults (eng : RegexEngine) (searchTerms : List String) (sec : String) :
    List DocFile → List DocSearchResult → Except String (List DocSearchResult)
  | [], acc => .ok acc
  | file :: fs, acc =>
    match docFileScore eng searchTerms file with
    | .error e => .error e
    | .ok score =>
      if score > 0 then
        docFilesResults eng searchTerms sec fs
          (acc ++ [{ file := jsReplaceOnce file.relPath ".md" "", sectionName := sec
                     excerpt := docExcerpt file.content (searchTerms.headD "")
                     score := score }])
      else docFilesResults eng searchTerms sec fs acc

/-- The outer `for (const sec of sectionsToSearch)` loop of `searchDocs`. -/
def docSearchResults (eng : RegexEngine) (tree : DocsTree) (searchTerms : List String) :
    List String → List DocSearchResult → Except String (List DocSearchResult)
  | [], acc => .ok acc
  | sec :: secs, acc =>
    match docFilesResults eng searchTerms sec (tree sec) acc with
    | .error e => .error e
    | .ok acc2 => docSearchResults eng tree searchTerms secs acc2

/-- The section list searched: the given section when it is one of
`DOCS_SECTIONS`, otherwise all sections. -/
def docsSectionsToSearch (sectionOpt : Option String) : List String :=
  match sectionOpt with
  | some sec => if DOCS_SECTIONS.contains sec then [sec] else DOCS_SECTIONS
  | none => DOCS_SECTIONS

/-- `searchDocs(query, section?)`: lowercase and split the query on
whitespace, pick the section list, score every file, sort descending and
format the top 5.  There is no `try`/`catch` anywhere in this function:
whatever `new RegExp` throws reaches the caller. -/
def searchDocsE (query : String) (sectionOpt : Option String) (tree : DocsTree)
    (eng : RegexEngine) : Except String String :=
  match docSearchResults eng tree (jsSplitRuns wsClass (lowerStr query))
      (docsSectionsToSearch sectionOpt) [] with
  | .error e => .error e
  | .ok results =>
    if (results.mergeSort docScoreDesc).length = 0 then
      .ok ("No results found for \"" ++ query ++ "\" in Zenlytic docs.")
    else
      .ok (jsJoin "\n\n---\n\n"
        (((results.mergeSort docScoreDesc).take 5).map (fun r =>
          let url := (assocFind SECTION_URLS r.sectionName).getD "" ++ "/" ++
            jsReplaceOnce r.file (r.sectionName ++ "/") ""
          "## " ++ r.file ++ "\nSource: " ++ url ++ "\n\n" ++ r.excerpt)))

/-- The filesystem as `getDocsPage` observes it, paths relative to the
docs root: `existsSync`, and `readFileSync` which may throw. -/
structure DocsFs where
  pathExists : String → Bool
  readFile : String → Except String String

/-- The path normalization prefix of `getDocsPage` (outside the `try`):
strip one leading and one trailing slash, append `.md` unless present. -/
def normalizeDocsPath (pagePath : String) : String :=
  let p := match pagePath.data with
    | '/' :: rest => (⟨rest⟩ : String)
    | _ => pagePath
  let p := match p.data.reverse with
    | '/' :: restRev => (⟨restRev.reverse⟩ : String)
    | _ => p
  if "md.".data.isPrefixOf p.data.reverse then p else p ++ ".md"

/-- `getDocsPage(pagePath)`: normalize, try the exact relative path, fall
back to each section directory, and wrap the filesystem work in a
`try`/`catch` that returns an error string. -/
def getDocsPageE (pagePath : String) (fsys : DocsFs) : Except String String :=
  let normalizedPath := normalizeDocsPath pagePath
  jsTry
    (if !(fsys.pathExists normalizedPath) then
      match DOCS_SECTIONS.find? (fun sec => fsys.pathExists (sec ++ "/" ++ normalizedPath)) with
      | some sec => do
        let content ← fsys.readFile (sec ++ "/" ++ normalizedPath)
        let url := (assocFind SECTION_URLS sec).getD "" ++ "/" ++
          jsReplaceOnce normalizedPath ".md" ""
        pure ("Source: " ++ url ++ "\n\n" ++ content)
      | none => pure ("Page not found: " ++ pagePath)
    else do
      let content ← fsys.readFile normalizedPath
      let url :=
        match DOCS_SECTIONS.find? (fun sec => sec.data.isPrefixOf normalizedPath.data) with
        | some sec =>
          (assocFind SECTION_URLS sec).getD "" ++ "/" ++
            jsReplaceOnce (jsReplaceOnce normalizedPath (sec ++ "/") "") ".md" ""
        | none => "https://docs.zenlytic.com/" ++ jsReplaceOnce normalizedPath ".md" ""
      pure ("Source: " ++ url ++ "\n\n" ++ content))
    (fun e => pure ("Error reading page: " ++ e))

/-! ## Concrete instances used by the example theorems below -/

/-- Demo batch of three questions. -/
def demoQ1 : BatchQuestion := { id := "1", question := "Is data encrypted at rest?", context := none }

def demoQ2 : BatchQuestion := { id := "2", question := "Do you hold ISO 27001?", context := none }

def demoQ3 : BatchQuestion := { id := "3", question := "Is MFA enforced?", context := none }

/-- A three-question job as `createJob` persists it. -/
def demoJob : BatchJob := createJob [demoQ1, demoQ2, demoQ3] none 1000 "abc123"

/-- The blob store right after `createJob`. -/
def demoStore : JobStore := [(demoJob.id, demoJob)]

/-- An answering engine that throws on question 2 and answers questions 1
and 3 with non-empty answers. -/
def demoEngine : Engine := fun q =>
  if q.id = "2" then .error "Notion search failed"
  else .ok { answer := "**Yes** - see the policy for question " ++ q.id ++ "."
             citations := ["SOC2 Type II Report"] }

/-- A single-question job reachable through `createJob`. -/
def demoCreated : BatchJob := createJob [demoQ1] none 0 "r1"

/-- A generic result record. -/
def demoR : BatchResult := { id := "1", question := "q", answer := "a", citations := [], error := none }

/-- A completed job with 201 questions and 201 results. -/
def job201 : BatchJob :=
  { id := "job_big", status := .completed
    questions := List.replicate 201 demoQ1
    instructions := none
    results := List.replicate 201 demoR
    progress := 100, error := none, createdAt := 0, updatedAt := 0 }

/-- A job with one question and one result, fully processed. -/
def job1full : BatchJob :=
  { id := "job_one", status := .completed
    questions := [demoQ1], instructions := none
    results := [demoR]
    progress := 100, error := none, createdAt := 0, updatedAt := 0 }

/-- Cleanup demo: `now` is 10000000; the old job was last updated 61
minutes (3660000 ms) earlier, the fresh one 59 minutes (3540000 ms)
earlier. -/
def oldJob : BatchJob := { demoJob with updatedAt := 10000000 - 3660000 }

def newJob : BatchJob := { demoJob with updatedAt := 10000000 - 3540000 }

def cleanupDemoStore : JobStore := [("old", oldJob), ("new", newJob)]

/-- A provider response that requests a tool on every turn. -/
def alwaysToolUse : ProviderResponse :=
  { stopReason := .toolUse, content := [Block.toolUse "toolu_01" "search_notion" "q"] }

/-- A terminal provider response. -/
def demoFinal : ProviderResponse :=
  { stopReason := .endTurn, content := [Block.text "**Yes** - [SOC2 Type II Report]"] }

/-- A tool router oracle. -/
def demoExec : String → String → String := fun _ _ => "tool output"

/-- A docs tree holding one markdown file in the `data-sources`
section. -/
def demoTree : DocsTree := fun sec =>
  if sec = "data-sources" then
    [{ name := "snowflake_setup", content := "Snowflake setup guide"
       relPath := "data-sources/snowflake_setup.md" }]
  else []

/-- The JS `RegExp` constructor on the patterns reached in the runs below:
`"("` is invalid regular-expression syntax (an unterminated group) and
throws a `SyntaxError`; the other patterns reached compile. -/
def parenEngine : RegexEngine :=
  { compile := fun pat =>
      if pat = "(" then .error "SyntaxError: Invalid regular expression"
      else .ok { countMatches := fun _ => 0 } }

/-- A regex engine on which every pattern compiles. -/
def okEngine : RegexEngine := { compile := fun _ => .ok { countMatches := fun _ => 0 } }

/-- A Notion API oracle with empty but well-formed responses. -/
def trivApi : NotionApi :=
  { search := fun _ => .ok []
    retrievePage := fun _ => .ok { id := "pg", titleText := none }
    blocksBatches := fun _ => [] }

/-- A docs filesystem with no files. -/
def trivFs : DocsFs := { pathExists := fun _ => false, readFile := fun _ => .error "ENOENT" }

/-- Local index page scoring demo: keywords include `"CC1.1.3"` and the
title contains `"training"`. -/
def paDemo : IndexedPage :=
  { id := "p1", title := "Security Training", parent := "Employee Handbook"
    keywords := ["CC1.1.3", "training"], snippet := "Annual training policy" }

/-- Local index page matching the query terms only in its snippet. -/
def pbDemo : IndexedPage :=
  { id := "p2", title := "Overview", parent := ""
    keywords := [], snippet := "cc1.1.3 training appears in snippet text only" }

/-! ## Theorems -/

theorem jsRound_zero : jsRound 0 = 0 := by
  unfold jsRound
  rw [zero_add, Int.floor_eq_iff]
  norm_num

/-- The background handler, as written, never writes to the job store:
every control path returns before the first store write. -/
theorem batchBackgroundHandler_store_eq (store : JobStore) (method : String)
    (jid : Option String) (eng : Engine) (now : ℤ) :
    (batchBackgroundHandler store method jid eng now).store = store := by
  cases jid <;>
    by_cases hm : method = "POST" <;>
      simp [batchBackgroundHandler, hm, promiseTruthy, promiseField, jsLengthOf]

/-- C1.  The batch orchestrator does *not* leave the demo job completed
with three results: `const job = getJob(jobId)` is not awaited, so `job`
is a Promise, `job.questions` is `undefined`, and the handler throws a
`TypeError` that its top-level `catch` turns into a 500 response — before
any question is processed and before any store write.  The persisted job
stays `pending` with zero results. -/
theorem c1_unawaited_getJob_aborts_batch :
    batchBackgroundHandler demoStore "POST" (some demoJob.id) demoEngine 2000 =
      { statusCode := 500, store := demoStore } ∧
    (getJob demoStore demoJob.id).map BatchJob.status = some JobStatus.pending ∧
    (getJob demoStore demoJob.id).map (fun j => j.results.length) = some 0 := by
  refine ⟨rfl, rfl, rfl⟩

/-- With the three missing `await`s inserted, the handler does exactly
what the specification's fault-isolation scenario demands: the job ends
`completed` with three results in input order, result 2 carrying an empty
answer, no citations and the error, results 1 and 3 carrying the engine's
non-empty answers. -/
theorem batchBackground_awaited_fault_isolation :
    (getJob (batchBackgroundHandlerAwaited demoStore "POST" (some demoJob.id)
        demoEngine 2000).store demoJob.id).map
      (fun j => (j.status,
        j.results.map (fun r => (r.id, decide (r.answer = ""), r.citations.length, r.error)))) =
    some (JobStatus.completed,
      [("1", false, 1, none), ("2", true, 0, some "Notion search failed"),
       ("3", false, 1, none)]) := by
  rfl

/-- C2.  The tool-use loop of `askQuestion` has no round-trip cap: against
a provider that signals `tool_use` on every response, the loop is still
running after consuming the initial response and any number `n` of further
provider responses — no bound on provider round-trips makes it
terminate. -/
theorem c2_askLoop_has_no_iteration_cap (exec : String → String → String)
    (n : ℕ) (msgs : List Message) :
    (askLoop exec alwaysToolUse (List.replicate n alwaysToolUse) msgs).2 = none := by
  induction n generalizing msgs with
  | zero => rfl
  | succ k ih =>
      rw [List.replicate_succ]
      show (askLoop exec alwaysToolUse (List.replicate k alwaysToolUse) _).2 = none
      exact ih _

/-- C3.  No run of the background handler ever writes status `failed` (or
anything else) to the store: in particular, when the job record cannot be
loaded at orchestration start (the demo run asks for an id that is not in
the store) the handler answers 500 and the created job remains `pending`
forever — it never reaches a terminal status. -/
theorem c3_no_failed_terminal_status :
    (∀ (store : JobStore) (method : String) (jid : Option String) (eng : Engine) (now : ℤ),
      (batchBackgroundHandler store method jid eng now).store = store) ∧
    (batchBackgroundHandler demoStore "POST" (some "missing") demoEngine 0).statusCode = 500 ∧
    (getJob (batchBackgroundHandler demoStore "POST" (some "missing") demoEngine 0).store
        demoJob.id).map BatchJob.status = some JobStatus.pending := by
  refine ⟨batchBackgroundHandler_store_eq, rfl, ?_⟩
  rw [batchBackgroundHandler_store_eq]
  rfl

/-- C4.  Invariant of every job state reachable through the store
operations as the system calls them: progress is always
`round(100 * results.length / questions.length)` (recomputed on every
append), results never outnumber questions, and the status is `completed`
exactly when every question has its result. -/
theorem c4_job_store_invariant (job : BatchJob) (h : ReachableJob job) :
    job.progress = jsRound (100 * (job.results.length : ℚ) / (job.questions.length : ℚ)) ∧
    job.results.length ≤ job.questions.length ∧
    (job.status = JobStatus.completed ↔ job.results.length = job.questions.length) := by
  induction h with
  | create qs ins now rand hne =>
      have hlen : qs.length ≠ 0 := fun h0 => hne (List.length_eq_zero.mp h0)
      refine ⟨?_, Nat.zero_le _, ?_⟩
      · simp [createJob, jsRound_zero]
      · simp only [createJob]
        exact iff_of_false (by decide) (by simp only [List.length_nil]; omega)
  | add job r now hr hlt ih =>
      obtain ⟨_, _, ihiff⟩ := ih
      refine ⟨?_, ?_, ?_⟩
      · simp only [applyAddResult]
        congr 1
        ring
      · simp only [applyAddResult, List.length_append, List.length_cons, List.length_nil]
        omega
      · simp only [applyAddResult]
        by_cases hc : (job.results ++ [r]).length = job.questions.length
        · simp [hc]
        · simp only [hc, if_false, iff_false]
          rw [ihiff]
          intro habs
          omega
  | markProcessing job now hr hlt ih =>
      obtain ⟨ihp, ihle, _⟩ := ih
      exact ⟨ihp, ihle, iff_of_false (by simp [applyStatusUpdate])
        (by simp only [applyStatusUpdate]; omega)⟩
  | markCompleted job now hr heq ih =>
      obtain ⟨ihp, ihle, _⟩ := ih
      exact ⟨ihp, ihle, iff_of_true (by simp [applyStatusUpdate]) heq⟩

/-- Witness for `c4_job_store_invariant`: the single-question job produced
by `createJob` is reachable and satisfies the invariant. -/
theorem c4_job_store_invariant_witness :
    ReachableJob demoCreated ∧
    (demoCreated.progress =
        jsRound (100 * (demoCreated.results.length : ℚ) / (demoCreated.questions.length : ℚ)) ∧
      demoCreated.results.length ≤ demoCreated.questions.length ∧
      (demoCreated.status = JobStatus.completed ↔
        demoCreated.results.length = demoCreated.questions.length)) :=
  ⟨ReachableJob.create [demoQ1] none 0 "r1" (by decide),
   c4_job_store_invariant demoCreated
     (ReachableJob.create [demoQ1] none 0 "r1" (by decide))⟩

/-- C9.  A stored job survives the cleanup pass exactly when its
`updatedAt` is within the one-hour retention window: every record older
than `now - 60·60·1000` ms is deleted, every other record is preserved. -/
theorem c9_cleanup_retention (store : JobStore) (now : ℤ) (k : String) (j : BatchJob)
    (hmem : (k, j) ∈ store) :
    ((k, j) ∈ cleanupOldJobs store now ↔ ¬(j.updatedAt < now - 60 * 60 * 1000)) := by
  unfold cleanupOldJobs
  simp [List.mem_filter, hmem]

/-- Witness for `c9_cleanup_retention`: with `now = 10000000`, the job
last updated 61 minutes ago is deleted and the one last updated 59
minutes ago is preserved. -/
theorem c9_cleanup_retention_witness :
    ("old", oldJob) ∈ cleanupDemoStore ∧ ("new", newJob) ∈ cleanupDemoStore ∧
    ("old", oldJob) ∉ cleanupOldJobs cleanupDemoStore 10000000 ∧
    ("new", newJob) ∈ cleanupOldJobs cleanupDemoStore 10000000 := by
  have h1 := c9_cleanup_retention cleanupDemoStore 10000000 "old" oldJob (by decide)
  have h2 := c9_cleanup_retention cleanupDemoStore 10000000 "new" newJob (by decide)
  refine ⟨by decide, by decide, ?_, h2.mpr (by decide)⟩
  intro hmem
  exact (h1.mp hmem) (by decide)

/-- C10 fails as stated: on this stored job with 201 questions and 201
results (status `completed`), a further `addResult` does append — results
grow to 202 — but the recomputed progress is `round(100·202/201) = 100`,
not strictly more than 100. -/
theorem c10_counterexample_progress_not_above_100 :
    job201.results.length = job201.questions.length ∧
    job201.status = JobStatus.completed ∧
    (applyAddResult job201 demoR 0).results.length = job201.questions.length + 1 ∧
    ¬(100 < (applyAddResult job201 demoR 0).progress) := by
  refine ⟨by simp [job201], rfl, by simp [applyAddResult, job201], ?_⟩
  have hp : (applyAddResult job201 demoR 0).progress = jsRound ((202 : ℚ) / 201 * 100) := by
    simp only [applyAddResult, job201, List.length_append, List.length_replicate,
      List.length_cons, List.length_nil]
    norm_num
  have hval : jsRound ((202 : ℚ) / 201 * 100) = 100 := by
    unfold jsRound
    rw [Int.floor_eq_iff]
    norm_num
  rw [hp, hval]
  omega

/-- C10 as amended.  `addResult` appends unconditionally: on a job whose
results already equal its (non-empty) questions, one further call leaves
`results.length = questions.length + 1` — the store never enforces the
results-never-exceed-questions bound, which rests entirely on the callers
— and the recomputed progress is at least 100 (it need not exceed 100:
see the counterexample above). -/
theorem c10_amended_addResult_appends_unconditionally (job : BatchJob) (r : BatchResult)
    (now : ℤ) (hfull : job.results.length = job.questions.length)
    (hne : job.questions ≠ []) :
    (applyAddResult job r now).results.length = job.questions.length + 1 ∧
    100 ≤ (applyAddResult job r now).progress := by
  have hn : 1 ≤ job.questions.length :=
    Nat.one_le_iff_ne_zero.mpr (fun h0 => hne (List.length_eq_zero.mp h0))
  have hnQ : (0 : ℚ) < (job.questions.length : ℚ) := by exact_mod_cast hn
  have hlen : (applyAddResult job r now).results.length = job.questions.length + 1 := by
    simp [applyAddResult, hfull]
  have hprog : (applyAddResult job r now).progress =
      ⌊(100 / (job.questions.length : ℚ) + 1/2) + ((100 : ℤ) : ℚ)⌋ := by
    simp only [applyAddResult, jsRound, List.length_append, List.length_cons,
      List.length_nil, hfull]
    congr 1
    push_cast
    field_simp
    ring
  have hfloor : (applyAddResult job r now).progress =
      ⌊100 / (job.questions.length : ℚ) + 1/2⌋ + 100 := by
    rw [hprog, Int.floor_add_int]
  refine ⟨hlen, ?_⟩
  rw [hfloor]
  have : 0 ≤ ⌊100 / (job.questions.length : ℚ) + 1/2⌋ :=
    Int.floor_nonneg.mpr (by positivity)
  omega

/-- Witness for `c10_amended_addResult_appends_unconditionally` on the
fully processed one-question job. -/
theorem c10_amended_witness :
    job1full.results.length = job1full.questions.length ∧
    job1full.questions ≠ [] ∧
    ((applyAddResult job1full demoR 0).results.length = job1full.questions.length + 1 ∧
      100 ≤ (applyAddResult job1full demoR 0).progress) :=
  ⟨by decide, by decide,
   c10_amended_addResult_appends_unconditionally job1full demoR 0 (by decide) (by decide)⟩

/-- Each `tool_use` block of a response content yields exactly one
`tool_result` whose `tool_use_id` is that block's id, in order. -/
theorem toolResultsFor_ids (exec : String → String → String) (content : List Block) :
    (toolResultsFor exec content).map ToolResult.toolUseId = toolUseIds content := by
  induction content with
  | nil => rfl
  | cons b rest ih =>
      cases b with
      | text t =>
          simpa [toolResultsFor, toolUseBlocks, toolUseIds, List.filter_cons,
            List.filterMap_cons] using ih
      | toolUse i nm inp =>
          simpa [toolResultsFor, toolUseBlocks, toolUseIds, List.filter_cons,
            List.filterMap_cons] using ih

/-- The transcript grown by the loop factors over its starting
transcript. -/
theorem askLoop_transcript_shift (exec : String → String → String)
    (rest : List ProviderResponse) :
    ∀ (r : ProviderResponse) (msgs : List Message),
      (askLoop exec r rest msgs).1 = msgs ++ (askLoop exec r rest []).1 := by
  induction rest with
  | nil =>
      intro r msgs
      by_cases h : r.stopReason = StopReason.toolUse <;> simp [askLoop, h]
  | cons r2 rs ih =>
      intro r msgs
      by_cases h : r.stopReason = StopReason.toolUse
      · simp only [askLoop, h, if_true, List.nil_append]
        rw [ih r2 (msgs ++ [Message.assistant r.content,
              Message.toolResults (toolResultsFor exec r.content)]),
          ih r2 [Message.assistant r.content,
              Message.toolResults (toolResultsFor exec r.content)]]
        simp
      · simp [askLoop, h]

/-- The suffix the loop appends is always a balanced sequence of
assistant/tool-results pairs. -/
theorem askLoop_balanced (exec : String → String → String)
    (rest : List ProviderResponse) :
    ∀ r : ProviderResponse, BalancedPairs ((askLoop exec r rest []).1) := by
  induction rest with
  | nil =>
      intro r
      by_cases h : r.stopReason = StopReason.toolUse
      · simp only [askLoop, h, if_true, List.nil_append]
        exact BalancedPairs.pair _ _ _ (toolResultsFor_ids exec r.content) BalancedPairs.nil
      · simp only [askLoop, h, if_false]
        exact BalancedPairs.nil
  | cons r2 rs ih =>
      intro r
      by_cases h : r.stopReason = StopReason.toolUse
      · simp only [askLoop, h, if_true, List.nil_append]
        rw [askLoop_transcript_shift]
        exact BalancedPairs.pair _ _ _ (toolResultsFor_ids exec r.content) (ih r2)
      · simp only [askLoop, h, if_false]
        exact BalancedPairs.nil

/-- When the loop reports a final response, that response carried no
`tool_use` stop reason. -/
theorem askLoop_final_not_toolUse (exec : String → String → String)
    (rest : List ProviderResponse) :
    ∀ (r : ProviderResponse) (msgs : List Message) (fin : ProviderResponse),
      (askLoop exec r rest msgs).2 = some fin → fin.stopReason ≠ StopReason.toolUse := by
  induction rest with
  | nil =>
      intro r msgs fin h
      by_cases hr : r.stopReason = StopReason.toolUse
      · simp [askLoop, hr] at h
      · simp [askLoop, hr] at h
        exact h ▸ hr
  | cons r2 rs ih =>
      intro r msgs fin h
      by_cases hr : r.stopReason = StopReason.toolUse
      · simp only [askLoop, hr, if_true] at h
        exact ih r2 _ fin h
      · simp [askLoop, hr] at h
        exact h ▸ hr

/-- A response with any other stop reason exits the loop at once,
untouched transcript, that response final. -/
theorem askLoop_exit (exec : String → String → String) (r : ProviderResponse)
    (rest : List ProviderResponse) (msgs : List Message)
    (h : r.stopReason ≠ StopReason.toolUse) :
    askLoop exec r rest msgs = (msgs, some r) := by
  cases rest <;> simp [askLoop, h]

/-- C5.  Turn balance of the tool-use loop: the transcript it builds is
the starting transcript followed by balanced assistant/tool-results pairs
— inside each pair every `tool_use` block has exactly one `tool_result`
with its `tool_use_id`, in order, appended before the next provider call —
and the loop exits exactly on a response whose stop reason is not
`tool_use`. -/
theorem c5_transcript_turn_balanced (exec : String → String → String)
    (r : ProviderResponse) (rest : List ProviderResponse) (msgs : List Message) :
    (askLoop exec r rest msgs).1 = msgs ++ (askLoop exec r rest []).1 ∧
    BalancedPairs ((askLoop exec r rest []).1) ∧
    (∀ fin : ProviderResponse, (askLoop exec r rest msgs).2 = some fin →
      fin.stopReason ≠ StopReason.toolUse) ∧
    (r.stopReason ≠ StopReason.toolUse → askLoop exec r rest msgs = (msgs, some r)) :=
  ⟨askLoop_transcript_shift exec rest r msgs,
   askLoop_balanced exec rest r,
   askLoop_final_not_toolUse exec rest r msgs,
   askLoop_exit exec r rest msgs⟩

/-- Witness for `c5_transcript_turn_balanced` on a one-round run: one
tool-use response answered by `demoExec`, then a terminal response. -/
theorem c5_transcript_turn_balanced_witness :
    (askLoop demoExec alwaysToolUse [demoFinal] [Message.user "q"]).1 =
      [Message.user "q"] ++ (askLoop demoExec alwaysToolUse [demoFinal] []).1 ∧
    BalancedPairs ((askLoop demoExec alwaysToolUse [demoFinal] []).1) ∧
    demoFinal.stopReason ≠ StopReason.toolUse ∧
    askLoop demoExec demoFinal [] [] = ([], some demoFinal) := by
  have h := c5_transcript_turn_balanced demoExec alwaysToolUse [demoFinal] [Message.user "q"]
  have h2 := c5_transcript_turn_balanced demoExec demoFinal [] []
  exact ⟨h.1, h.2.1, h.2.2.1 demoFinal rfl, h2.2.2.2 (by decide)⟩

theorem except_ok_bind {α β : Type} (a : α) (f : α → Except String β) :
    (Except.ok a >>= f) = f a := rfl

/-- A `try`/`catch` whose handler returns normally cannot reject. -/
theorem jsTry_handler_ok {body : Except String String}
    {handler : String → Except String String}
    (h : ∀ e, (handler e).isOk = true) : (jsTry body handler).isOk = true := by
  cases body with
  | ok a => rfl
  | error e => exact h e

theorem searchNotionE_isOk (query : String) (pf : Option String) (api : NotionApi) :
    (searchNotionE query pf api).isOk = true :=
  jsTry_handler_ok (fun _ => rfl)

theorem getNotionPageE_isOk (pid : String) (api : NotionApi) :
    (getNotionPageE pid api).isOk = true :=
  jsTry_handler_ok (fun _ => rfl)

theorem searchQAPairsE_isOk (query : String) (pairs : List QAPair) :
    (searchQAPairsE query pairs).isOk = true := rfl

theorem getDocsPageE_isOk (ppath : String) (fsys : DocsFs) :
    (getDocsPageE ppath fsys).isOk = true := by
  unfold getDocsPageE
  apply jsTry_handler_ok
  intro e
  rfl

theorem docFileScoreAux_isOk (eng : RegexEngine) (file : DocFile) :
    ∀ (terms : List String) (score : ℕ),
      (∀ t ∈ terms, (eng.compile t).isOk = true) →
      (docFileScoreAux eng file terms score).isOk = true := by
  intro terms
  induction terms with
  | nil => intro score _; rfl
  | cons t ts ih =>
      intro score h
      have hc : (eng.compile t).isOk = true := h t (List.mem_cons_self t ts)
      cases hcomp : eng.compile t with
      | error e => rw [hcomp] at hc; exact absurd hc (by simp [Except.isOk, Except.toBool])
      | ok rex =>
          simp only [docFileScoreAux, hcomp]
          exact ih _ (fun u hu => h u (List.mem_cons_of_mem t hu))

theorem docFilesResults_isOk (eng : RegexEngine) (searchTerms : List String) (sec : String)
    (h : ∀ t ∈ searchTerms, (eng.compile t).isOk = true) :
    ∀ (files : List DocFile) (acc : List DocSearchResult),
      (docFilesResults eng searchTerms sec files acc).isOk = true := by
  intro files
  induction files with
  | nil => intro acc; rfl
  | cons file fs ih =>
      intro acc
      have hsc : (docFileScore eng searchTerms file).isOk = true :=
        docFileScoreAux_isOk eng file searchTerms 0 h
      cases hscore : docFileScore eng searchTerms file with
      | error e => rw [hscore] at hsc; exact absurd hsc (by simp [Except.isOk, Except.toBool])
      | ok score =>
          simp only [docFilesResults, hscore]
          by_cases hpos : score > 0 <;> simp [hpos] <;> exact ih _

theorem docSearchResults_isOk (eng : RegexEngine) (tree : DocsTree)
    (searchTerms : List String)
    (h : ∀ t ∈ searchTerms, (eng.compile t).isOk = true) :
    ∀ (sections : List String) (acc : List DocSearchResult),
      (docSearchResults eng tree searchTerms sections acc).isOk = true := by
  intro sections
  induction sections with
  | nil => intro acc; rfl
  | cons sec secs ih =>
      intro acc
      have hfr : (docFilesResults eng searchTerms sec (tree sec) acc).isOk = true :=
        docFilesResults_isOk eng searchTerms sec h (tree sec) acc
      cases hres : docFilesResults eng searchTerms sec (tree sec) acc with
      | error e => rw [hres] at hfr; exact absurd hfr (by simp [Except.isOk, Except.toBool])
      | ok acc2 =>
          simp only [docSearchResults, hres]
          exact ih acc2

theorem searchDocsE_isOk (query : String) (sectionOpt : Option String) (tree : DocsTree)
    (eng : RegexEngine)
    (h : ∀ t ∈ jsSplitRuns wsClass (lowerStr query), (eng.compile t).isOk = true) :
    (searchDocsE query sectionOpt tree eng).isOk = true := by
  unfold searchDocsE
  cases hres : docSearchResults eng tree (jsSplitRuns wsClass (lowerStr query))
      (docsSectionsToSearch sectionOpt) [] with
  | error e =>
      have hthis := docSearchResults_isOk eng tree (jsSplitRuns wsClass (lowerStr query)) h
        (docsSectionsToSearch sectionOpt) []
      rw [hres] at hthis
      exact absurd hthis (by simp [Except.isOk, Except.toBool])
  | ok results =>
      simp only [hres]
      split <;> rfl

/-- C6 fails as stated on `searchDocs`: the query `"("` — one token of
invalid regular-expression syntax — reaches the unguarded
`new RegExp(term, 'gi')` while scanning the demo docs tree, and the
resulting `SyntaxError` escapes `searchDocs` to its caller instead of
being returned as text. -/
theorem c6_counterexample_searchDocs_throws :
    searchDocsE "(" none demoTree parenEngine =
      Except.error "SyntaxError: Invalid regular expression" ∧
    (searchDocsE "(" none demoTree parenEngine).isOk = false :=
  ⟨rfl, rfl⟩

/-- C6 as amended.  For every query, filter and upstream behaviour —
network errors, malformed responses, any query text — `searchNotion`,
`getNotionPage`, `searchQAPairs` and `getDocsPage` return a string and
never throw; `searchDocs` also never throws *provided* every
whitespace-separated token of the query compiles as a regular expression
(a token of invalid regex syntax can escape as a `SyntaxError`). -/
theorem c6_amended_sources_return_strings (query : String) (pageFilter : Option String)
    (api : NotionApi) (pairs : List QAPair) (pageId pagePath : String)
    (fsys : DocsFs) (tree : DocsTree) (eng : RegexEngine) (sectionOpt : Option String) :
    (searchNotionE query pageFilter api).isOk = true ∧
    (getNotionPageE pageId api).isOk = true ∧
    (searchQAPairsE query pairs).isOk = true ∧
    (getDocsPageE pagePath fsys).isOk = true ∧
    ((∀ t ∈ jsSplitRuns wsClass (lowerStr query), (eng.compile t).isOk = true) →
      (searchDocsE query sectionOpt tree eng).isOk = true) :=
  ⟨searchNotionE_isOk query pageFilter api, getNotionPageE_isOk pageId api,
   searchQAPairsE_isOk query pairs, getDocsPageE_isOk pagePath fsys,
   fun h => searchDocsE_isOk query sectionOpt tree eng h⟩

/-- Witness for `c6_amended_sources_return_strings` on concrete inputs
and oracles. -/
theorem c6_amended_witness :
    (searchNotionE "soc2 report" none trivApi).isOk = true ∧
    (getNotionPageE "CC1.1.3" trivApi).isOk = true ∧
    (searchQAPairsE "soc2 report" []).isOk = true ∧
    (getDocsPageE "legal-and-support/legal/subprocessors" trivFs).isOk = true ∧
    (searchDocsE "soc2 report" none demoTree okEngine).isOk = true := by
  have h := c6_amended_sources_return_strings "soc2 report" none trivApi [] "CC1.1.3"
    "legal-and-support/legal/subprocessors" trivFs demoTree okEngine none
  exact ⟨h.1, h.2.1, h.2.2.1, h.2.2.2.1, h.2.2.2.2 (fun t _ => rfl)⟩

/-- A term matching neither exactly nor partially in the keywords nor in
the title contributes at most the +3 snippet component. -/
theorem termScore_le_snippet (tl sl : String) (kws : List String) (t : String)
    (h1 : kws.contains t = false)
    (h2 : kws.any (fun k => strContains k t) = false)
    (h3 : strContains tl t = false) :
    termScore tl sl kws t ≤ 3 := by
  simp only [termScore, h1, h2, h3, Bool.false_eq_true, if_false, Bool.and_false]
  split_ifs <;> omega

/-- An exact keyword of control-identifier shape contributes at least
10 + 15. -/
theorem termScore_cc_exact (tl sl : String) (kws : List String)
    (h : kws.contains "cc1.1.3" = true) :
    25 ≤ termScore tl sl kws "cc1.1.3" := by
  have hcc : isCCPattern "cc1.1.3" = true := rfl
  simp only [termScore, h, hcc, if_true, Bool.and_self]
  split_ifs <;> omega

/-- A title substring match contributes at least 8. -/
theorem termScore_title_sub (tl sl : String) (kws : List String) (t : String)
    (h : strContains tl t = true) :
    8 ≤ termScore tl sl kws t := by
  simp only [termScore, h, if_true]
  split_ifs <;> omega

theorem scoreDesc_trans : ∀ a b c : ScoredPage,
    scoreDesc a b = true → scoreDesc b c = true → scoreDesc a c = true := by
  intro a b c
  simp only [scoreDesc, decide_eq_true_eq]
  omega

theorem scoreDesc_total : ∀ a b : ScoredPage,
    (scoreDesc a b || scoreDesc b a) = true := by
  intro a b
  simp only [scoreDesc, Bool.or_eq_true, decide_eq_true_eq]
  omega

/-- Every entry of the ranked list carries the score of its own page. -/
theorem rankedMatches_score_eq (query : String) (index : List IndexedPage)
    (e : ScoredPage) (he : e ∈ rankedMatches query index) :
    e.score = scoreMatch e.page (localQueryTerms query) := by
  unfold rankedMatches at he
  rw [List.mem_mergeSort] at he
  obtain ⟨he2, _⟩ := List.mem_filter.mp he
  obtain ⟨p, _, rfl⟩ := List.mem_map.mp he2
  rfl

/-- C7.  For the query `"CC1.1.3 training"`, a page whose keywords include
`"CC1.1.3"` and whose title contains `"training"` scores strictly above
any page matching the query terms only in its snippet, and therefore
precedes it in `searchLocalIndex`'s ranking (no later entry for the
snippet-only page is followed by an entry for the keyword/title page). -/
theorem c7_keyword_title_page_outranks_snippet_page (pa pb : IndexedPage)
    (hkw : (pa.keywords.map lowerStr).contains "cc1.1.3" = true)
    (htitle : strContains (lowerStr pa.title) "training" = true)
    (hb : ∀ t ∈ localQueryTerms "CC1.1.3 training",
      (pb.keywords.map lowerStr).contains t = false ∧
      (pb.keywords.map lowerStr).any (fun k => strContains k t) = false ∧
      strContains (lowerStr pb.title) t = false) :
    scoreMatch pb (localQueryTerms "CC1.1.3 training") <
      scoreMatch pa (localQueryTerms "CC1.1.3 training") ∧
    ∀ index : List IndexedPage,
      (rankedMatches "CC1.1.3 training" index).Pairwise
        (fun x y => ¬(x.page = pb ∧ y.page = pa)) := by
  have hterms : localQueryTerms "CC1.1.3 training" = ["cc1.1.3", "training"] := rfl
  have hlt : scoreMatch pb (localQueryTerms "CC1.1.3 training") <
      scoreMatch pa (localQueryTerms "CC1.1.3 training") := by
    rw [hterms] at hb ⊢
    obtain ⟨hb1k, hb1a, hb1t⟩ := hb "cc1.1.3" (by simp)
    obtain ⟨hb2k, hb2a, hb2t⟩ := hb "training" (by simp)
    have hA1 := termScore_cc_exact (lowerStr pa.title) (lowerStr pa.snippet)
      (pa.keywords.map lowerStr) hkw
    have hA2 := termScore_title_sub (lowerStr pa.title) (lowerStr pa.snippet)
      (pa.keywords.map lowerStr) "training" htitle
    have hB1 := termScore_le_snippet (lowerStr pb.title) (lowerStr pb.snippet)
      (pb.keywords.map lowerStr) "cc1.1.3" hb1k hb1a hb1t
    have hB2 := termScore_le_snippet (lowerStr pb.title) (lowerStr pb.snippet)
      (pb.keywords.map lowerStr) "training" hb2k hb2a hb2t
    simp only [scoreMatch, List.foldl]
    omega
  refine ⟨hlt, ?_⟩
  intro index
  have hsorted : (rankedMatches "CC1.1.3 training" index).Pairwise
      (fun a b => scoreDesc a b = true) :=
    List.sorted_mergeSort scoreDesc_trans scoreDesc_total _
  refine List.Pairwise.imp_of_mem ?_ hsorted
  intro a b ha hb2 hr hcontra
  obtain ⟨hpa, hpb⟩ := hcontra
  have hsa := rankedMatches_score_eq "CC1.1.3 training" index a ha
  have hsb := rankedMatches_score_eq "CC1.1.3 training" index b hb2
  rw [hpa] at hsa
  rw [hpb] at hsb
  simp only [scoreDesc, decide_eq_true_eq] at hr
  omega

/-- Witness for `c7_keyword_title_page_outranks_snippet_page` on the two
demo pages and a two-page index. -/
theorem c7_witness :
    (paDemo.keywords.map lowerStr).contains "cc1.1.3" = true ∧
    strContains (lowerStr paDemo.title) "training" = true ∧
    (∀ t ∈ localQueryTerms "CC1.1.3 training",
      (pbDemo.keywords.map lowerStr).contains t = false ∧
      (pbDemo.keywords.map lowerStr).any (fun k => strContains k t) = false ∧
      strContains (lowerStr pbDemo.title) t = false) ∧
    scoreMatch pbDemo (localQueryTerms "CC1.1.3 training") <
      scoreMatch paDemo (localQueryTerms "CC1.1.3 training") ∧
    (rankedMatches "CC1.1.3 training" [pbDemo, paDemo]).Pairwise
      (fun x y => ¬(x.page = pbDemo ∧ y.page = paDemo)) := by
  have h := c7_keyword_title_page_outranks_snippet_page paDemo pbDemo
    (by decide) (by decide) (by decide)
  exact ⟨by decide, by decide, by decide, h.1, h.2 [pbDemo, paDemo]⟩

/-- C8.  `getNotionPage("CC1.1.3")`, in any letter case, resolves through
the `CC_CONTROLS` alias table: the identifier handed to the remote
page/blocks fetch is the mapped internal page id, never the literal
control token, and the whole call behaves exactly as a call on the mapped
id. -/
theorem c8_control_alias_resolution :
    ∀ s ∈ ["CC1.1.3", "Cc1.1.3", "cC1.1.3", "cc1.1.3"],
      resolvePageId s = "53107304c6764dad877fe3dc62b7fe2f" ∧
      resolvePageId s ≠ s ∧
      ∀ api : NotionApi,
        getNotionPageE s api = getNotionPageE "53107304c6764dad877fe3dc62b7fe2f" api := by
  intro s hs
  fin_cases hs <;>
    exact ⟨by decide, by decide, fun api => by
      unfold getNotionPageE
      congr 2⟩

/-- Witness for `c8_control_alias_resolution` at the lowercase form. -/
theorem c8_control_alias_resolution_witness :
    resolvePageId "cc1.1.3" = "53107304c6764dad877fe3dc62b7fe2f" ∧
    resolvePageId "cc1.1.3" ≠ "cc1.1.3" ∧
    getNotionPageE "cc1.1.3" trivApi =
      getNotionPageE "53107304c6764dad877fe3dc62b7fe2f" trivApi := by
  have h := c8_control_alias_resolution "cc1.1.3" (by decide)
  exact ⟨h.1, h.2.1, h.2.2 trivApi⟩
